import Mathlib

/-!
Shallow embedding of the StandupBot sprint-analysis engine
(src/src/analyzer.py, class SprintAnalyzer) and proofs about it.

Modelling conventions:
* Python numeric values (story points, percentages) are modelled as exact
  rationals; the arithmetic expressions are transcribed operator for
  operator from the source.
* An issue's dynamic custom fields (accessed in the source via getattr on
  issue.fields) are modelled as association lists, numeric-valued and
  string-valued separately.  An absent entry models both a missing
  attribute and an attribute whose value is null/zero: every use in the
  source either applies an "or 0" default or only tests falsiness, so the
  two are observationally identical there.
* Code that can raise (datetime.strptime on the updated/created fields)
  is modelled with Except; exceptions that the source catches and ignores
  (invalid due dates, epic fetch failures) are modelled as Option/total
  code, matching the try/except blocks in the source.
-/

namespace StandupBot

/-- An issue as consumed by SprintAnalyzer: the fields of issue.fields that
the analyzer reads, plus the issue key. -/
structure Issue where
  key : String
  statusName : String
  assignee : Option String
  issuetypeName : String
  labels : List String
  fixVersions : List String
  duedate : Option String
  updated : String
  created : String
  customNum : List (String × ℚ)
  customStr : List (String × String)
deriving Repr, DecidableEq

/-- The jira section of the configuration, as read by the analyzer. -/
structure JiraConfig where
  story_points_field : Option String
  epic_link_field : Option String
  field_mappings : List (String × String)
  jira_browse_url : String
deriving Repr, DecidableEq

/-- The guidelines section: thresholds used by hygiene and risk checks.
A value of none models an absent key, so that dict.get defaults apply. -/
structure Guidelines where
  max_unassigned_pct : Option ℚ
  max_unestimated_pct : Option ℚ
  max_issues_without_fix_versions_pct : Option ℚ
  stale_issue_days : Option ℤ
  blocker_labels : Option (List String)
deriving Repr, DecidableEq

/-- Guidelines with every key absent, so every dict.get default applies. -/
def gDefault : Guidelines :=
  { max_unassigned_pct := none
    max_unestimated_pct := none
    max_issues_without_fix_versions_pct := none
    stale_issue_days := none
    blocker_labels := none }

/-- Python getattr(issue.fields, fieldId, 0) or 0 on a numeric custom
field: the value if present and truthy, otherwise 0. -/
def getNumField (fields : List (String × ℚ)) (fieldId : String) : ℚ :=
  match fields.lookup fieldId with
  | some v => v
  | none => 0

/-- Scan of field_mappings for a story-points field, as in
SprintAnalyzer._calculate_metrics: the first mapping entry whose name is
"Story point estimate" or "Story Points". -/
def scanStoryPointsMapping (mappings : List (String × String)) : Option String :=
  (mappings.find? (fun p => p.2 == "Story point estimate" || p.2 == "Story Points")).map Prod.fst

/-- Story-points field resolution used by _calculate_metrics and
_analyze_workload: explicit config value when truthy, else the mapping
scan, else the literal fallback customfield_10016. -/
def resolveStoryPointsField (cfg : JiraConfig) : String :=
  let explicit := cfg.story_points_field.getD ""
  if explicit = "" then
    match scanStoryPointsMapping cfg.field_mappings with
    | some fid => fid
    | none => "customfield_10016"
  else explicit

/-- Story-points field resolution used by _check_sprint_hygiene and
_analyze_detailed_workload: config.get("jira", \x7b\x7d).get("story_points_field",
"customfield_10016"), with no field-mapping scan. -/
def directStoryPointsField (cfg : JiraConfig) : String :=
  cfg.story_points_field.getD "customfield_10016"

/-- Result of _calculate_metrics.  status_counts is kept as the
association list underlying the Python dict, so that its exact key set is
part of the model. -/
structure Metrics where
  total_issues : ℕ
  status_counts : List (String × ℕ)
  total_story_points : ℚ
  story_points_done : ℚ
  progress_pct : ℚ
deriving Repr, DecidableEq

/-- The dict literal initialising status_counts in _calculate_metrics. -/
def initStatusCounts : List (String × ℕ) :=
  [("To Do", 0), ("In Progress", 0), ("Done", 0)]

/-- One execution of: if status in status_counts: status_counts[status] += 1. -/
def bumpStatus (counts : List (String × ℕ)) (status : String) : List (String × ℕ) :=
  if counts.any (fun p => p.1 == status) then
    counts.map (fun p => if p.1 = status then (p.1, p.2 + 1) else p)
  else counts

/-- One iteration of the metrics loop body over (status_counts,
total_story_points, story_points_done). -/
def metricsFold (spf : String) (acc : List (String × ℕ) × ℚ × ℚ) (i : Issue) :
    List (String × ℕ) × ℚ × ℚ :=
  let counts := bumpStatus acc.1 i.statusName
  let sp := getNumField i.customNum spf
  let tsp := acc.2.1 + sp
  let spd := if i.statusName = "Done" then acc.2.2 + sp else acc.2.2
  (counts, tsp, spd)

/-- Python status_counts[status] on the association-list model. -/
def lookupCount (counts : List (String × ℕ)) (status : String) : ℕ :=
  match counts.lookup status with
  | some n => n
  | none => 0

/-- SprintAnalyzer._calculate_metrics. -/
def calculateMetrics (cfg : JiraConfig) (issues : List Issue) : Metrics :=
  let spf := resolveStoryPointsField cfg
  let r := issues.foldl (metricsFold spf) (initStatusCounts, 0, 0)
  { total_issues := issues.length
    status_counts := r.1
    total_story_points := r.2.1
    story_points_done := r.2.2
    progress_pct :=
      if issues.length > 0 then
        ((lookupCount r.1 "Done" : ℚ) / (issues.length : ℚ)) * 100
      else 0 }

/-- One entry of the hygiene result map: keys, count, percentage, is_issue. -/
structure HygieneEntry where
  keys : List String
  count : ℕ
  percentage : ℚ
  is_issue : Bool
deriving Repr, DecidableEq

/-- Result of _check_sprint_hygiene. -/
structure Hygiene where
  unassigned_issues : HygieneEntry
  unestimated_issues : HygieneEntry
deriving Repr, DecidableEq

/-- SprintAnalyzer._check_sprint_hygiene.  The unestimated check reads the
story-points field id directly from config with the literal default
customfield_10016 (directStoryPointsField); it does not run the
field-mapping scan that _calculate_metrics runs. -/
def checkSprintHygiene (cfg : JiraConfig) (g : Guidelines) (issues : List Issue) : Hygiene :=
  let unassigned := (issues.filter (fun i => i.assignee.isNone)).map Issue.key
  let spf := directStoryPointsField cfg
  let unestimated :=
    (issues.filter (fun i =>
      decide (i.issuetypeName ≠ "Bug" ∧ getNumField i.customNum spf = 0))).map Issue.key
  let unassigned_pct : ℚ :=
    if issues.isEmpty then 0 else (unassigned.length : ℚ) / (issues.length : ℚ) * 100
  let unestimated_pct : ℚ :=
    if issues.isEmpty then 0 else (unestimated.length : ℚ) / (issues.length : ℚ) * 100
  { unassigned_issues :=
      { keys := unassigned
        count := unassigned.length
        percentage := unassigned_pct
        is_issue := decide (unassigned_pct > (g.max_unassigned_pct.getD 10)) }
    unestimated_issues :=
      { keys := unestimated
        count := unestimated.length
        percentage := unestimated_pct
        is_issue := decide (unestimated_pct > (g.max_unestimated_pct.getD 10)) } }

/-- Python s.lower, applied to ASCII issue-type names. -/
def pyLower (s : String) : String := String.mk (s.toList.map Char.toLower)

/-- SprintAnalyzer._check_fix_version_hygiene. -/
def checkFixVersionHygiene (g : Guidelines) (issues : List Issue) : HygieneEntry :=
  let keys :=
    (issues.filter (fun i =>
      decide (pyLower i.issuetypeName ≠ "bug" ∧ i.fixVersions = []))).map Issue.key
  let totalNonBug := (issues.filter (fun i => decide (pyLower i.issuetypeName ≠ "bug"))).length
  let pct : ℚ :=
    if totalNonBug > 0 then (keys.length : ℚ) / (totalNonBug : ℚ) * 100 else 0
  { keys := keys
    count := keys.length
    percentage := pct
    is_issue := decide (pct > (g.max_issues_without_fix_versions_pct.getD 0)) }

/-- Gregorian leap-year test, as in Python datetime. -/
def isLeap (y : ℕ) : Bool := y % 4 == 0 && (y % 100 != 0 || y % 400 == 0)

/-- Number of days in a month, as validated by datetime. -/
def daysInMonth (y m : ℕ) : ℕ :=
  if m = 2 then (if isLeap y then 29 else 28)
  else if m = 4 ∨ m = 6 ∨ m = 9 ∨ m = 11 then 30
  else 31

/-- A calendar date as produced by a successful strptime. -/
structure CivilDate where
  year : ℕ
  month : ℕ
  day : ℕ
deriving Repr, DecidableEq

/-- Split of a character list at every occurrence of sep, as Python
str.split with a one-character separator: adjacent separators and edge
separators yield empty groups. -/
def splitOnChar (sep : Char) : List Char → List (List Char)
  | [] => [[]]
  | c :: cs =>
    match splitOnChar sep cs with
    | [] => if c = sep then [[], []] else [[c]]
    | g :: gs => if c = sep then [] :: g :: gs else (c :: g) :: gs

/-- Python s.split(sep) for a one-character separator. -/
def pySplit (sep : Char) (s : String) : List String :=
  (splitOnChar sep s.toList).map String.mk

/-- True when s is nonempty and all decimal digits. -/
def allDigits (s : String) : Bool := s.toList.length > 0 && s.toList.all Char.isDigit

/-- Numeric value of a list of decimal digits. -/
def digitsToNat (cs : List Char) : ℕ :=
  cs.foldl (fun n c => n * 10 + (c.toNat - Char.toNat '0')) 0

/-- Numeric value of a digit string. -/
def natOf (s : String) : ℕ := digitsToNat s.toList

/-- datetime.strptime(s, "%Y-%m-%d") as a total function: a four-digit
year and one/two-digit month and day, validated to a real calendar date
(year at least 1, month 1..12, day within the month); none models the
ValueError branch. -/
def parseDate (s : String) : Option CivilDate :=
  match pySplit '-' s with
  | [ys, ms, ds] =>
    if ys.length = 4 && allDigits ys &&
       ms.length ≤ 2 && allDigits ms &&
       ds.length ≤ 2 && allDigits ds then
      let y := natOf ys
      let m := natOf ms
      let d := natOf ds
      if 1 ≤ y && 1 ≤ m && m ≤ 12 && 1 ≤ d && d ≤ daysInMonth y m then
        some ⟨y, m, d⟩
      else none
    else none
  | _ => none

/-- Day count of a civil date on a proleptic-Gregorian timeline (the
standard civil-from-days construction); only differences of day numbers
are ever used, so the epoch offset is irrelevant. -/
def dayNumber (dt : CivilDate) : ℕ :=
  let y := if dt.month ≤ 2 then dt.year - 1 else dt.year
  let era := y / 400
  let yoe := y % 400
  let mp := if dt.month > 2 then dt.month - 3 else dt.month + 9
  let doy := (153 * mp + 2) / 5 + (dt.day - 1)
  let doe := yoe * 365 + yoe / 4 - yoe / 100 + doy
  era * 146097 + doe

/-- Timestamp, in integer microseconds on the timeline of dayNumber, of
midnight UTC of a date; this is the value
datetime.strptime(...).replace(tzinfo=utc) contributes to comparisons.
Python datetimes have exactly microsecond resolution, so integer
microseconds are an exact model. -/
def dateTs (dt : CivilDate) : ℤ := (dayNumber dt : ℤ) * 86400000000

/-- A parsed aware datetime: the wall-clock date as written (used by
strftime) together with the absolute UTC timestamp in microseconds. -/
structure ParsedDateTime where
  date : CivilDate
  ts : ℤ
deriving Repr, DecidableEq

/-- The %z directive: Z, or a sign followed by exactly four digits HHMM;
returns the offset in seconds. -/
def parseOffset (s : String) : Option ℤ :=
  if s = "Z" then some 0
  else
    match s.toList with
    | c :: rest =>
      if (c == '+' || c == '-') && rest.length = 4 && rest.all Char.isDigit then
        let hh := natOf (String.mk (rest.take 2))
        let mm := natOf (String.mk (rest.drop 2))
        if hh ≤ 23 && mm ≤ 59 then
          let total : ℤ := hh * 3600 + mm * 60
          some (if c == '-' then -total else total)
        else none
      else none
    | [] => none

/-- The %f directive followed by %z: one to six fraction digits, then a
timezone offset.  Returns the fraction in microseconds (fraction digits
are right-padded to six, as strptime does) and the offset in seconds. -/
def parseFracOffset (tail : String) : Option (ℕ × ℤ) :=
  let cs := tail.toList
  let fracDigits := cs.takeWhile Char.isDigit
  let rest := cs.drop fracDigits.length
  if 1 ≤ fracDigits.length && fracDigits.length ≤ 6 then
    match parseOffset (String.mk rest) with
    | some off => some (digitsToNat fracDigits * 10 ^ (6 - fracDigits.length), off)
    | none => none
  else none

/-- datetime.strptime(s, "%Y-%m-%dT%H:%M:%S.%f%z") as a total function;
none models the ValueError branch.  The result carries the wall-clock
date and the UTC timestamp (offset subtracted), which is what timedelta
arithmetic against an aware UTC now observes. -/
def parseDateTime (s : String) : Option ParsedDateTime :=
  match pySplit 'T' s with
  | [ds, ts] =>
    match parseDate ds with
    | none => none
    | some d =>
      match pySplit ':' ts with
      | [hs, ms, rest] =>
        if allDigits hs && hs.length ≤ 2 && allDigits ms && ms.length ≤ 2 then
          let h := natOf hs
          let mi := natOf ms
          match pySplit '.' rest with
          | [ss, tail] =>
            if allDigits ss && ss.length ≤ 2 then
              let sec := natOf ss
              if h ≤ 23 && mi ≤ 59 && sec ≤ 59 then
                match parseFracOffset tail with
                | some fo =>
                  some ⟨d, dateTs d + ((h * 3600 + mi * 60 + sec : ℕ) : ℤ) * 1000000 +
                    (fo.1 : ℤ) - fo.2 * 1000000⟩
                | none => none
              else none
            else none
          | _ => none
        else none
      | _ => none
  | _ => none

/-- Python (now - t).days of a timedelta between two aware datetimes with
timestamps in microseconds: the floor of the difference in days
(timedelta normalises with days rounded toward minus infinity). -/
def timedeltaDays (now t : ℤ) : ℤ := Int.fdiv (now - t) 86400000000

/-- The blocker_labels guideline with its default. -/
def blockerLabelsOf (g : Guidelines) : List String :=
  g.blocker_labels.getD ["blocker", "impediment"]

/-- True when some label of the issue matches a configured blocker label
case-insensitively, as in the inner loop of _identify_risks. -/
def hasBlockerLabel (g : Guidelines) (i : Issue) : Bool :=
  i.labels.any (fun l => (blockerLabelsOf g).any (fun b => pyLower b == pyLower l))

/-- The overdue test of _identify_risks for one issue: a truthy due date
that parses, lies strictly before now, on an issue whose status is not
Done.  Parse failure falls into the except branch and yields false. -/
def isOverdue (now : ℤ) (i : Issue) : Bool :=
  match i.duedate with
  | none => false
  | some ds =>
    match parseDate ds with
    | none => false
    | some d => decide (dateTs d < now) && i.statusName != "Done"

/-- Zero-padded two-digit rendering, as strftime %m and %d produce. -/
def pad2 (n : ℕ) : String := if n < 10 then "0" ++ toString n else toString n

/-- Zero-padded four-digit rendering, as strftime %Y produces. -/
def pad4 (n : ℕ) : String :=
  if n < 10 then "000" ++ toString n
  else if n < 100 then "00" ++ toString n
  else if n < 1000 then "0" ++ toString n
  else toString n

/-- strftime("%Y-%m-%d") of a parsed datetime. -/
def fmtDate (d : CivilDate) : String :=
  pad4 d.year ++ "-" ++ pad2 d.month ++ "-" ++ pad2 d.day

/-- The stale entry appended for one issue. -/
def staleLabel (i : Issue) (u : ParsedDateTime) : String :=
  i.key ++ " (Last updated: " ++ fmtDate u.date ++ ")"

/-- The three accumulating lists of _identify_risks.  blocker_raw is the
blocker_issues list before the final list(set(...)); the set conversion is
modelled separately because its iteration order is implementation-defined. -/
structure Risks where
  overdue_keys : List String
  stale_keys : List String
  blocker_raw : List String
deriving Repr, DecidableEq

/-- Python len(set(blocker_issues)): the number of distinct raw keys. -/
def Risks.blockerCount (r : Risks) : ℕ := r.blocker_raw.dedup.length

/-- The loop of _identify_risks.  The due-date branch runs first and never
fails; strptime on the updated field is unguarded in the source, so its
failure is an uncaught ValueError, modelled as Except.error, which
discards the lists accumulated so far exactly as the exception does. -/
def identifyRisksGo (g : Guidelines) (now : ℤ) : List Issue → Risks → Except String Risks
  | [], acc => Except.ok acc
  | i :: rest, acc =>
    let od := if isOverdue now i then acc.overdue_keys ++ [i.key] else acc.overdue_keys
    match parseDateTime i.updated with
    | none => Except.error ("time data " ++ i.updated ++ " does not match format")
    | some u =>
      let st :=
        if timedeltaDays now u.ts > (g.stale_issue_days.getD 7) then
          acc.stale_keys ++ [staleLabel i u]
        else acc.stale_keys
      let bl := if hasBlockerLabel g i then acc.blocker_raw ++ [i.key] else acc.blocker_raw
      identifyRisksGo g now rest ⟨od, st, bl⟩

/-- SprintAnalyzer._identify_risks. -/
def identifyRisks (g : Guidelines) (now : ℤ) (issues : List Issue) : Except String Risks :=
  identifyRisksGo g now issues ⟨[], [], []⟩

/-- Python list(set(xs)) for a list of strings: some list holding exactly
the distinct elements of xs.  CPython iterates a set in hash-table order,
which for strings is randomised per process, so the order is
implementation-defined: any list satisfying this relation is a possible
value of list(set(xs)). -/
def IsSetList (xs ys : List String) : Prop :=
  ys.Nodup ∧ ∀ a, a ∈ ys ↔ a ∈ xs

/-- Deduplication keeping the first occurrence of each element, in
first-seen order.  This is the ordering the specification describes for
the blocker keys; it is defined here only to compare against the
implementation-defined set order of the source. -/
def firstSeenDedup (xs : List String) : List String :=
  xs.foldl (fun acc x => if x ∈ acc then acc else acc ++ [x]) []

/-- One row of the detailed workload for one issue. -/
structure DetailedItem where
  issue_key : String
  issue_link : String
  issue_type : String
  story_points : ℚ
  current_status : String
  days_assigned : ℤ
deriving Repr, DecidableEq

/-- Python defaultdict(list) append: extend the list at an existing key,
else insert the key at the end with a one-element list. -/
def dictAppend (m : List (String × List DetailedItem)) (k : String) (v : DetailedItem) :
    List (String × List DetailedItem) :=
  if m.any (fun p => p.1 == k) then
    m.map (fun p => if p.1 = k then (p.1, p.2 ++ [v]) else p)
  else m ++ [(k, [v])]

/-- The loop of _analyze_detailed_workload.  Issues without an assignee
are skipped; strptime on the created field is unguarded in the source, so
its failure is an uncaught ValueError, modelled as Except.error. -/
def detailedWorkloadGo (cfg : JiraConfig) (now : ℤ) :
    List Issue → List (String × List DetailedItem) →
    Except String (List (String × List DetailedItem))
  | [], acc => Except.ok acc
  | i :: rest, acc =>
    match i.assignee with
    | none => detailedWorkloadGo cfg now rest acc
    | some name =>
      match parseDateTime i.created with
      | none => Except.error ("time data " ++ i.created ++ " does not match format")
      | some c =>
        let item : DetailedItem :=
          { issue_key := i.key
            issue_link := cfg.jira_browse_url ++ i.key
            issue_type := i.issuetypeName
            story_points := getNumField i.customNum (directStoryPointsField cfg)
            current_status := i.statusName
            days_assigned := timedeltaDays now c.ts }
        detailedWorkloadGo cfg now rest (dictAppend acc name item)

/-- SprintAnalyzer._analyze_detailed_workload. -/
def analyzeDetailedWorkload (cfg : JiraConfig) (now : ℤ) (issues : List Issue) :
    Except String (List (String × List DetailedItem)) :=
  detailedWorkloadGo cfg now issues []

/-- True when an Except value is ok. -/
def exceptIsOk {ε α : Type} : Except ε α → Bool
  | Except.ok _ => true
  | Except.error _ => false

/-- Story points of one issue under the scan-based field resolution used
by _calculate_metrics and _analyze_workload. -/
def storyPointsOf (cfg : JiraConfig) (i : Issue) : ℚ :=
  getNumField i.customNum (resolveStoryPointsField cfg)

/-- The (assignee, story points) pairs processed by the workload loop, in
issue order; issues without an assignee are skipped by continue. -/
def assignedPairs (cfg : JiraConfig) (issues : List Issue) : List (String × ℚ) :=
  issues.filterMap (fun i => i.assignee.map (fun a => (a, storyPointsOf cfg i)))

/-- One iteration of the workload loop on the defaultdict: add the points
to an existing assignee entry, else insert the assignee at the end. -/
def addPoints (acc : List (String × ℚ)) (p : String × ℚ) : List (String × ℚ) :=
  if acc.any (fun q => q.1 == p.1) then
    acc.map (fun q => if q.1 = p.1 then (q.1, q.2 + p.2) else q)
  else acc ++ [p]

/-- The workload dict before sorting, in assignee first-encounter order
(Python dict insertion order). -/
def workloadAgg (cfg : JiraConfig) (issues : List Issue) : List (String × ℚ) :=
  (assignedPairs cfg issues).foldl addPoints []

/-- The comparison realised by sorted(key=total points, reverse=True):
a precedes b when b does not exceed a. -/
def pointsDescLe (a b : String × ℚ) : Bool := decide (b.2 ≤ a.2)

/-- SprintAnalyzer._analyze_workload: the aggregated workload sorted
descending by total points with Python sorted, which is stable, modelled
by the stable mergeSort. -/
def analyzeWorkload (cfg : JiraConfig) (issues : List Issue) : List (String × ℚ) :=
  (workloadAgg cfg issues).mergeSort pointsDescLe

/-- Epic-link field resolution of _extract_epics: explicit config value
when truthy, else the first field mapping named Epic Link or Epic Name. -/
def resolveEpicLinkField (cfg : JiraConfig) : Option String :=
  let explicit := cfg.epic_link_field.getD ""
  if explicit = "" then
    (cfg.field_mappings.find? (fun p => p.2 == "Epic Link" || p.2 == "Epic Name")).map Prod.fst
  else some explicit

/-- getattr(issue.fields, fieldId, None) on a string-valued custom field. -/
def getStrField (fields : List (String × String)) (fieldId : String) : Option String :=
  fields.lookup fieldId

/-- One entry of the epics result. -/
structure EpicInfo where
  summary : String
  url : String
deriving Repr, DecidableEq

/-- Python dict assignment epics[k] = v: overwrite an existing key in
place, else insert the key at the end. -/
def dictInsertEpic (m : List (String × EpicInfo)) (k : String) (v : EpicInfo) :
    List (String × EpicInfo) :=
  if m.any (fun p => p.1 == k) then
    m.map (fun p => if p.1 = k then (p.1, v) else p)
  else m ++ [(k, v)]

/-- The loop of _extract_epics over (lookups performed, epics dict): one
external lookup per issue whose epic-link value is truthy, with no
memoisation; a failed lookup is caught with a warning and adds nothing to
the dict. -/
def extractEpicsGo (cfg : JiraConfig) (fetch : String → Option String) (fid : String) :
    List Issue → List String × List (String × EpicInfo) →
    List String × List (String × EpicInfo)
  | [], acc => acc
  | i :: rest, acc =>
    match getStrField i.customStr fid with
    | none => extractEpicsGo cfg fetch fid rest acc
    | some k =>
      if k = "" then extractEpicsGo cfg fetch fid rest acc
      else
        match fetch k with
        | some summ =>
          extractEpicsGo cfg fetch fid rest
            (acc.1 ++ [k],
             dictInsertEpic acc.2 k { summary := summ, url := cfg.jira_browse_url ++ k })
        | none => extractEpicsGo cfg fetch fid rest (acc.1 ++ [k], acc.2)

/-- SprintAnalyzer._extract_epics against an external single-issue lookup
fetch (key to epic summary; none models the caught fetch exception).  The
first component records every external lookup performed, in order; the
second component is the epics dict. -/
def extractEpics (cfg : JiraConfig) (fetch : String → Option String) (issues : List Issue) :
    List String × List (String × EpicInfo) :=
  match resolveEpicLinkField cfg with
  | none => ([], [])
  | some fid => extractEpicsGo cfg fetch fid issues ([], [])

/-- The truthy epic-link value of one issue, when the field id is fid. -/
def epicKeyOf (fid : String) (i : Issue) : Option String :=
  match getStrField i.customStr fid with
  | none => none
  | some k => if k = "" then none else some k

/-- Number of issues whose status name is exactly s. -/
def countStatus (issues : List Issue) (s : String) : ℕ :=
  (issues.filter (fun i => i.statusName == s)).length

/-- Sum of the story points of all issues under field id spf. -/
def sumPoints (spf : String) (issues : List Issue) : ℚ :=
  (issues.map (fun i => getNumField i.customNum spf)).sum

/-- Sum of the story points of the Done issues under field id spf. -/
def sumPointsDone (spf : String) (issues : List Issue) : ℚ :=
  ((issues.filter (fun i => i.statusName == "Done")).map
    (fun i => getNumField i.customNum spf)).sum

/-- Python dict access m.get(name): the value at the first entry whose
key is name. -/
def dictGet (m : List (String × ℚ)) (name : String) : Option ℚ :=
  match m with
  | [] => none
  | q :: qs => if q.1 = name then some q.2 else dictGet qs name

/-- A baseline well-formed issue for the concrete evaluations. -/
def baseIssue : Issue :=
  { key := "SB-0"
    statusName := "To Do"
    assignee := none
    issuetypeName := "Story"
    labels := []
    fixVersions := []
    duedate := none
    updated := "2025-06-10T12:00:00.000000+0000"
    created := "2025-06-01T09:30:00.000000+0000"
    customNum := []
    customStr := [] }

/-- A reference now: midnight UTC, June 15 2025, in microseconds. -/
def nowRef : ℤ := dateTs ⟨2025, 6, 15⟩

/-- An empty configuration: no explicit fields, no mappings. -/
def cfgNone : JiraConfig :=
  { story_points_field := none
    epic_link_field := none
    field_mappings := []
    jira_browse_url := "" }

/-- A non-bug issue with no fix versions. -/
def wFix : Issue := { baseIssue with key := "SB-1" }

/-- An issue overdue since the start of 2020, still in progress. -/
def oduIssue : Issue :=
  { baseIssue with key := "SB-2", duedate := some "2020-01-01", statusName := "In Progress" }

/-- An issue whose due date does not parse. -/
def badDueIssue : Issue := { baseIssue with key := "SB-3", duedate := some "not-a-date" }

/-- The risk result for the pair of due-date fixtures. -/
def riskPairRes : Risks :=
  (identifyRisks gDefault nowRef [oduIssue, badDueIssue]).toOption.getD ⟨[], [], []⟩

/-- An issue carrying a blocker label. -/
def blkA : Issue := { baseIssue with key := "SB-A", labels := ["Blocker"] }

/-- A second issue carrying a blocker label. -/
def blkB : Issue := { baseIssue with key := "SB-B", labels := ["urgent", "impediment"] }

/-- The risk result for the pair of blocker fixtures. -/
def risksBlkPair : Risks :=
  (identifyRisks gDefault nowRef [blkA, blkB]).toOption.getD ⟨[], [], []⟩

/-- A configuration with an explicit story-points field id. -/
def wlCfg : JiraConfig := { cfgNone with story_points_field := some "sp" }

/-- Workload fixture: bob with 3 points. -/
def wlBob : Issue :=
  { baseIssue with key := "SB-20", assignee := some "bob", customNum := [("sp", 3)] }

/-- Workload fixture: alice with 5 points. -/
def wlAlice : Issue :=
  { baseIssue with key := "SB-21", assignee := some "alice", customNum := [("sp", 5)] }

/-- Workload fixture: carol with 3 points, tying bob. -/
def wlCarol : Issue :=
  { baseIssue with key := "SB-22", assignee := some "carol", customNum := [("sp", 3)] }

/-- A configuration with an explicit epic-link field id. -/
def epicCfg : JiraConfig :=
  { cfgNone with
    epic_link_field := some "customfield_epic"
    jira_browse_url := "https://jira.example.com/browse/" }

/-- An issue linked to EPIC-1. -/
def epicIssue1 : Issue :=
  { baseIssue with key := "SB-30", customStr := [("customfield_epic", "EPIC-1")] }

/-- A second issue linked to the same EPIC-1. -/
def epicIssue2 : Issue :=
  { baseIssue with key := "SB-31", customStr := [("customfield_epic", "EPIC-1")] }

/-- An external lookup that knows EPIC-1 and fails on everything else. -/
def epicFetch : String → Option String :=
  fun k => if k = "EPIC-1" then some "Payments revamp" else none

/-- An issue whose updated timestamp does not parse. -/
def badUpdatedIssue : Issue := { baseIssue with key := "SB-40", updated := "garbage" }

/-- An assigned issue whose created timestamp does not parse. -/
def badCreatedIssue : Issue :=
  { baseIssue with key := "SB-41", assignee := some "dana", created := "garbage" }

/-- A configuration whose story-points field id is only resolvable through
the field-mapping table. -/
def c10Cfg : JiraConfig :=
  { cfgNone with field_mappings := [("customfield_99", "Story Points")] }

/-- An issue estimated at 5 points under the mapped field id. -/
def c10Issue : Issue :=
  { baseIssue with key := "SB-42", customNum := [("customfield_99", 5)] }

theorem bumpStatus_three (c₁ c₂ c₃ : ℕ) (s : String) :
    bumpStatus [("To Do", c₁), ("In Progress", c₂), ("Done", c₃)] s =
      [("To Do", if "To Do" = s then c₁ + 1 else c₁),
       ("In Progress", if "In Progress" = s then c₂ + 1 else c₂),
       ("Done", if "Done" = s then c₃ + 1 else c₃)] := by
  by_cases h₁ : "To Do" = s <;> by_cases h₂ : "In Progress" = s <;> by_cases h₃ : "Done" = s <;>
    simp_all [bumpStatus]

theorem metricsFold_go (spf : String) (issues : List Issue) :
    ∀ (c₁ c₂ c₃ : ℕ) (tsp spd : ℚ),
      issues.foldl (metricsFold spf) ([("To Do", c₁), ("In Progress", c₂), ("Done", c₃)], tsp, spd) =
        ([("To Do", c₁ + countStatus issues "To Do"),
          ("In Progress", c₂ + countStatus issues "In Progress"),
          ("Done", c₃ + countStatus issues "Done")],
         tsp + sumPoints spf issues,
         spd + sumPointsDone spf issues) := by
  induction issues with
  | nil => intro c₁ c₂ c₃ tsp spd; simp [countStatus, sumPoints, sumPointsDone]
  | cons i is ih =>
    intro c₁ c₂ c₃ tsp spd
    rw [List.foldl_cons]
    have hm : metricsFold spf ([("To Do", c₁), ("In Progress", c₂), ("Done", c₃)], tsp, spd) i =
        ([("To Do", if "To Do" = i.statusName then c₁ + 1 else c₁),
          ("In Progress", if "In Progress" = i.statusName then c₂ + 1 else c₂),
          ("Done", if "Done" = i.statusName then c₃ + 1 else c₃)],
         tsp + getNumField i.customNum spf,
         if i.statusName = "Done" then spd + getNumField i.customNum spf else spd) := by
      simp only [metricsFold, bumpStatus_three]
    rw [hm, ih]
    by_cases h₁ : i.statusName = "To Do" <;> by_cases h₂ : i.statusName = "In Progress" <;>
      by_cases h₃ : i.statusName = "Done" <;>
      simp_all [countStatus, sumPoints, sumPointsDone, List.filter_cons] <;>
      (repeat' apply And.intro) <;>
      first
        | trivial
        | omega
        | ring1
        | (intro h; exact h₁ h.symm)
        | (intro h; exact h₂ h.symm)
        | (intro h; exact h₃ h.symm)

theorem calculateMetrics_eq (cfg : JiraConfig) (issues : List Issue) :
    calculateMetrics cfg issues =
      { total_issues := issues.length
        status_counts :=
          [("To Do", countStatus issues "To Do"),
           ("In Progress", countStatus issues "In Progress"),
           ("Done", countStatus issues "Done")]
        total_story_points := sumPoints (resolveStoryPointsField cfg) issues
        story_points_done := sumPointsDone (resolveStoryPointsField cfg) issues
        progress_pct :=
          if issues.length > 0 then
            ((countStatus issues "Done" : ℚ) / (issues.length : ℚ)) * 100
          else 0 } := by
  simp only [calculateMetrics]
  rw [show initStatusCounts = [("To Do", 0), ("In Progress", 0), ("Done", 0)] from rfl,
    metricsFold_go]
  simp [lookupCount, List.lookup]

/-- C1: progress_pct is 0 when the filtered list is empty, and otherwise
is exactly the count of issues whose status name is Done, divided by the
total issue count, times 100. -/
theorem progress_pct_spec (cfg : JiraConfig) (issues : List Issue) :
    (calculateMetrics cfg issues).progress_pct =
      if issues.length = 0 then 0
      else (countStatus issues "Done" : ℚ) / (issues.length : ℚ) * 100 := by
  rw [calculateMetrics_eq]
  rcases Nat.eq_zero_or_pos issues.length with h | h
  · simp [h]
  · simp [h, Nat.pos_iff_ne_zero.mp h]

theorem countStatus_three_le (issues : List Issue) :
    countStatus issues "To Do" + countStatus issues "In Progress" + countStatus issues "Done" ≤
      issues.length := by
  induction issues with
  | nil => simp [countStatus]
  | cons i is ih =>
    by_cases h₁ : i.statusName = "To Do" <;> by_cases h₂ : i.statusName = "In Progress" <;>
      by_cases h₃ : i.statusName = "Done" <;>
      simp_all [countStatus, List.filter_cons] <;> omega

/-- C2: total_issues is the length of the filtered list; status_counts
has exactly the buckets To Do, In Progress, Done; each bucket counts
exactly the issues with that status name, so issues with any other status
name are in the total but in no bucket; and the bucket counts sum to at
most total_issues. -/
theorem metrics_counts_spec (cfg : JiraConfig) (issues : List Issue) :
    (calculateMetrics cfg issues).total_issues = issues.length ∧
    (calculateMetrics cfg issues).status_counts.map Prod.fst =
      ["To Do", "In Progress", "Done"] ∧
    lookupCount (calculateMetrics cfg issues).status_counts "To Do" =
      countStatus issues "To Do" ∧
    lookupCount (calculateMetrics cfg issues).status_counts "In Progress" =
      countStatus issues "In Progress" ∧
    lookupCount (calculateMetrics cfg issues).status_counts "Done" =
      countStatus issues "Done" ∧
    lookupCount (calculateMetrics cfg issues).status_counts "To Do" +
      lookupCount (calculateMetrics cfg issues).status_counts "In Progress" +
      lookupCount (calculateMetrics cfg issues).status_counts "Done" ≤
      (calculateMetrics cfg issues).total_issues := by
  rw [calculateMetrics_eq]
  refine ⟨rfl, rfl, ?_, ?_, ?_, ?_⟩ <;>
    simp [lookupCount, List.lookup, countStatus_three_le]

/-- C3: the unestimated-hygiene keys are exactly the issues whose type is
not Bug and whose story-points value, resolved directly from config with
the literal default customfield_10016, is missing or falsy; the
percentage is that count over all filtered issues, 0 for an empty list;
and is_issue holds iff the percentage strictly exceeds the
max_unestimated_pct threshold, whose default is 10. -/
theorem unestimated_hygiene_spec (cfg : JiraConfig) (g : Guidelines) (issues : List Issue) :
    (checkSprintHygiene cfg g issues).unestimated_issues.keys =
      (issues.filter (fun i =>
        decide (i.issuetypeName ≠ "Bug" ∧
          getNumField i.customNum (directStoryPointsField cfg) = 0))).map Issue.key ∧
    (checkSprintHygiene cfg g issues).unestimated_issues.count =
      (checkSprintHygiene cfg g issues).unestimated_issues.keys.length ∧
    (checkSprintHygiene cfg g issues).unestimated_issues.percentage =
      (if issues.isEmpty then 0
       else ((checkSprintHygiene cfg g issues).unestimated_issues.count : ℚ) /
         (issues.length : ℚ) * 100) ∧
    ((checkSprintHygiene cfg g issues).unestimated_issues.is_issue = true ↔
      (checkSprintHygiene cfg g issues).unestimated_issues.percentage >
        g.max_unestimated_pct.getD 10) := by
  refine ⟨rfl, rfl, rfl, ?_⟩
  simp [checkSprintHygiene]

theorem length_filter_fix_le (issues : List Issue) :
    (issues.filter (fun i =>
      decide (pyLower i.issuetypeName ≠ "bug" ∧ i.fixVersions = []))).length ≤
    (issues.filter (fun i => decide (pyLower i.issuetypeName ≠ "bug"))).length := by
  induction issues with
  | nil => simp
  | cons i is ih =>
    by_cases h₁ : pyLower i.issuetypeName = "bug" <;> by_cases h₂ : i.fixVersions = [] <;>
      simp_all [List.filter_cons] <;> omega

theorem pct_pos_iff (c n : ℕ) (hle : c ≤ n) :
    ((if 0 < n then (c : ℚ) / (n : ℚ) * 100 else 0) > 0) ↔ c ≠ 0 := by
  rcases Nat.eq_zero_or_pos n with hn | hn
  · have hc : c = 0 := by omega
    simp [hn, hc]
  · have hnq : (0 : ℚ) < (n : ℚ) := by exact_mod_cast hn
    rw [if_pos hn]
    constructor
    · intro h hc0
      rw [hc0] at h
      simp at h
    · intro hc0
      have hcpos : (0 : ℚ) < (c : ℚ) := by
        have hp : 0 < c := Nat.pos_of_ne_zero hc0
        exact_mod_cast hp
      positivity

/-- C4: the fix-version-hygiene keys are exactly the issues whose type is
not bug case-insensitively and whose fix-versions list is empty; the
percentage denominator is the count of non-bug issues, with percentage 0
when that count is 0; and under the default threshold (0) is_issue holds
iff some non-bug issue is missing a fix version. -/
theorem fix_version_hygiene_spec (g : Guidelines) (issues : List Issue) :
    (checkFixVersionHygiene g issues).keys =
      (issues.filter (fun i =>
        decide (pyLower i.issuetypeName ≠ "bug" ∧ i.fixVersions = []))).map Issue.key ∧
    (checkFixVersionHygiene g issues).count = (checkFixVersionHygiene g issues).keys.length ∧
    (checkFixVersionHygiene g issues).percentage =
      (if 0 < (issues.filter (fun i => decide (pyLower i.issuetypeName ≠ "bug"))).length then
         ((checkFixVersionHygiene g issues).count : ℚ) /
           ((issues.filter (fun i => decide (pyLower i.issuetypeName ≠ "bug"))).length : ℚ) * 100
       else 0) ∧
    (g.max_issues_without_fix_versions_pct = none →
      ((checkFixVersionHygiene g issues).is_issue = true ↔
        (checkFixVersionHygiene g issues).keys ≠ [])) := by
  refine ⟨rfl, rfl, rfl, ?_⟩
  intro hnone
  have h1 : (checkFixVersionHygiene g issues).is_issue =
      decide ((if 0 <
            (issues.filter (fun i => decide (pyLower i.issuetypeName ≠ "bug"))).length then
          (((issues.filter (fun i =>
              decide (pyLower i.issuetypeName ≠ "bug" ∧ i.fixVersions = []))).map
                Issue.key).length : ℚ) /
            ((issues.filter (fun i => decide (pyLower i.issuetypeName ≠ "bug"))).length : ℚ) *
            100
        else 0) > g.max_issues_without_fix_versions_pct.getD 0) := rfl
  have h2 : (checkFixVersionHygiene g issues).keys =
      (issues.filter (fun i =>
        decide (pyLower i.issuetypeName ≠ "bug" ∧ i.fixVersions = []))).map Issue.key := rfl
  rw [h1, h2, hnone, Option.getD_none]
  have hle : (((issues.filter (fun i =>
      decide (pyLower i.issuetypeName ≠ "bug" ∧ i.fixVersions = []))).map
        Issue.key).length : ℕ) ≤
      (issues.filter (fun i => decide (pyLower i.issuetypeName ≠ "bug"))).length := by
    rw [List.length_map]
    exact length_filter_fix_le issues
  rw [decide_eq_true_iff, pct_pos_iff _ _ hle, ne_eq, ne_eq, ← List.length_eq_zero]

/-- C4 witness: for the default guidelines and one non-bug issue without
fix versions, is_issue evaluates to true. -/
theorem fix_version_hygiene_witness :
    (checkFixVersionHygiene gDefault [wFix]).is_issue = true :=
  ((fix_version_hygiene_spec gDefault [wFix]).2.2.2 rfl).mpr (by decide)

theorem identifyRisksGo_ok (g : Guidelines) (now : ℤ) (issues : List Issue) :
    ∀ (acc r : Risks),
      identifyRisksGo g now issues acc = Except.ok r →
      r.overdue_keys = acc.overdue_keys ++ (issues.filter (isOverdue now)).map Issue.key ∧
      r.blocker_raw = acc.blocker_raw ++ (issues.filter (hasBlockerLabel g)).map Issue.key := by
  induction issues with
  | nil =>
    intro acc r h
    simp only [identifyRisksGo] at h
    cases h
    simp
  | cons i is ih =>
    intro acc r h
    simp only [identifyRisksGo] at h
    cases hp : parseDateTime i.updated with
    | none => rw [hp] at h; exact absurd h (by simp)
    | some u =>
      rw [hp] at h
      have hrec := ih _ r h
      by_cases ho : isOverdue now i <;> by_cases hb : hasBlockerLabel g i <;>
        simp_all [List.filter_cons]

theorem identifyRisksGo_isOk (g : Guidelines) (now : ℤ) (issues : List Issue) :
    ∀ acc : Risks,
      exceptIsOk (identifyRisksGo g now issues acc) = true ↔
        ∀ i ∈ issues, (parseDateTime i.updated).isSome = true := by
  induction issues with
  | nil => intro acc; simp [identifyRisksGo, exceptIsOk]
  | cons i is ih =>
    intro acc
    simp only [identifyRisksGo]
    cases hp : parseDateTime i.updated with
    | none => simp [exceptIsOk, hp]
    | some u => simp [hp, ih]

/-- C5: when the risk pass completes, the overdue keys are exactly the
keys of the issues, in order, whose due date is present and parses, lies
strictly before now (UTC), and whose status is not Done; a missing or
unparseable due date makes the overdue test false for that issue rather
than raising. -/
theorem overdue_risk_spec (g : Guidelines) (now : ℤ) (issues : List Issue) (r : Risks)
    (hok : identifyRisks g now issues = Except.ok r) :
    r.overdue_keys = (issues.filter (isOverdue now)).map Issue.key ∧
    (∀ i : Issue, isOverdue now i = true ↔
      ∃ ds d, i.duedate = some ds ∧ parseDate ds = some d ∧ dateTs d < now ∧
        i.statusName ≠ "Done") := by
  constructor
  · have h := identifyRisksGo_ok g now issues ⟨[], [], []⟩ r hok
    simpa using h.1
  · intro i
    unfold isOverdue
    cases hd : i.duedate with
    | none => simp
    | some ds =>
      cases hp : parseDate ds with
      | none => simp [hp]
      | some d => simp [hp]

/-- C5 witness: with one genuinely overdue issue and one issue whose due
date does not parse, the pass completes and reports exactly the overdue
key; the malformed due date is silently skipped. -/
theorem overdue_risk_witness :
    riskPairRes.overdue_keys = ["SB-2"] ∧ isOverdue nowRef badDueIssue = false := by
  have h := overdue_risk_spec gDefault nowRef [oduIssue, badDueIssue] riskPairRes rfl
  rw [h.1]
  exact ⟨by decide, by decide⟩

/-- C6 counterexample: the claim that blocker keys preserve first-seen
order fails.  For the concrete pair of blocker issues the raw keys in
first-seen order are SB-A then SB-B, yet the reversed list is also a
possible value of list(set(...)), whose iteration order is
implementation-defined. -/
theorem blocker_order_counterexample :
    IsSetList risksBlkPair.blocker_raw ["SB-B", "SB-A"] ∧
    firstSeenDedup risksBlkPair.blocker_raw = ["SB-A", "SB-B"] ∧
    (["SB-B", "SB-A"] : List String) ≠ ["SB-A", "SB-B"] := by
  have h : risksBlkPair.blocker_raw = ["SB-A", "SB-B"] := by decide
  refine ⟨⟨by decide, ?_⟩, by decide, by decide⟩
  intro a
  rw [h]
  simp [or_comm]

/-- C6 amended: when the risk pass completes, any possible value of the
blocker key list holds each issue key with a case-insensitive blocker
label exactly once, with no duplicates, and its length equals the
reported count; the iteration order of list(set(...)) is
implementation-defined rather than first-seen. -/
theorem blocker_keys_spec (g : Guidelines) (now : ℤ) (issues : List Issue) (r : Risks)
    (ys : List String)
    (hok : identifyRisks g now issues = Except.ok r)
    (hys : IsSetList r.blocker_raw ys) :
    ys.Nodup ∧
    (∀ k, k ∈ ys ↔ k ∈ (issues.filter (hasBlockerLabel g)).map Issue.key) ∧
    ys.length = r.blockerCount := by
  obtain ⟨hnd, hmem⟩ := hys
  have hb := (identifyRisksGo_ok g now issues ⟨[], [], []⟩ r hok).2
  simp only [List.nil_append] at hb
  refine ⟨hnd, ?_, ?_⟩
  · intro k
    rw [hmem k, hb]
  · have hperm : ys.Perm r.blocker_raw.dedup := by
      rw [List.perm_ext_iff_of_nodup hnd (List.nodup_dedup _)]
      intro a
      rw [hmem a, List.mem_dedup]
    simpa [Risks.blockerCount] using hperm.length_eq

/-- C6 amended witness: the concrete blocker pair, with a valid set order
of its keys. -/
theorem blocker_keys_witness :
    (["SB-A", "SB-B"] : List String).Nodup ∧
    (∀ k, k ∈ (["SB-A", "SB-B"] : List String) ↔
      k ∈ ([blkA, blkB].filter (hasBlockerLabel gDefault)).map Issue.key) ∧
    (["SB-A", "SB-B"] : List String).length = risksBlkPair.blockerCount := by
  refine blocker_keys_spec gDefault nowRef [blkA, blkB] risksBlkPair ["SB-A", "SB-B"] rfl
    ⟨by decide, ?_⟩
  intro a
  have h : risksBlkPair.blocker_raw = ["SB-A", "SB-B"] := by decide
  rw [h]

theorem detailedWorkloadGo_isOk (cfg : JiraConfig) (now : ℤ) (issues : List Issue) :
    ∀ acc,
      exceptIsOk (detailedWorkloadGo cfg now issues acc) = true ↔
        ∀ i ∈ issues, i.assignee.isSome = true → (parseDateTime i.created).isSome = true := by
  induction issues with
  | nil => intro acc; simp [detailedWorkloadGo, exceptIsOk]
  | cons i is ih =>
    intro acc
    simp only [detailedWorkloadGo]
    cases ha : i.assignee with
    | none => simp [ha, ih]
    | some name =>
      cases hp : parseDateTime i.created with
      | none => simp [exceptIsOk, hp, ha]
      | some c => simp [hp, ha, ih]

/-- C9 counterexample: malformed per-issue data can abort the batch.  An
unparseable updated timestamp aborts the risk pass, and an unparseable
created timestamp on an assigned issue aborts the detailed-workload
pass; both strptime calls are unguarded in the source. -/
theorem malformed_abort_counterexample :
    exceptIsOk (identifyRisks gDefault nowRef [badUpdatedIssue]) = false ∧
    exceptIsOk (analyzeDetailedWorkload cfgNone nowRef [badCreatedIssue]) = false :=
  ⟨rfl, rfl⟩

/-- C9 amended: missing or unparseable due dates and missing story-points
values never abort (they carry no hypothesis here), and the risk and
detailed-workload passes complete exactly when the unguarded strptime
calls succeed: the risk pass is ok when every issue's updated timestamp
parses, and the detailed-workload pass is ok when every assigned issue's
created timestamp parses. -/
theorem malformed_data_spec (cfg : JiraConfig) (g : Guidelines) (now : ℤ)
    (issues : List Issue)
    (hu : ∀ i ∈ issues, (parseDateTime i.updated).isSome = true)
    (hc : ∀ i ∈ issues, i.assignee.isSome = true → (parseDateTime i.created).isSome = true) :
    exceptIsOk (identifyRisks g now issues) = true ∧
    exceptIsOk (analyzeDetailedWorkload cfg now issues) = true :=
  ⟨(identifyRisksGo_isOk g now issues _).mpr hu,
   (detailedWorkloadGo_isOk cfg now issues _).mpr hc⟩

/-- C9 amended witness: with well-formed updated and created timestamps
both passes complete, even though one issue has an unparseable due date
and both issues are missing story points. -/
theorem malformed_data_witness :
    exceptIsOk (identifyRisks gDefault nowRef [oduIssue, badDueIssue]) = true ∧
    exceptIsOk (analyzeDetailedWorkload cfgNone nowRef [oduIssue, badDueIssue]) = true :=
  malformed_data_spec cfgNone gDefault nowRef [oduIssue, badDueIssue] (by decide) (by decide)

theorem dictGet_update (k : String) (x : ℚ) (name : String) (acc : List (String × ℚ)) :
    dictGet (acc.map (fun q => if q.1 = k then (q.1, q.2 + x) else q)) name =
      if k = name then (dictGet acc name).map (fun v => v + x) else dictGet acc name := by
  induction acc with
  | nil => by_cases h : k = name <;> simp [dictGet, h]
  | cons q qs ih =>
    by_cases h1 : q.1 = k <;> by_cases h2 : k = name <;> by_cases h3 : q.1 = name <;>
      simp_all [dictGet]

theorem dictGet_append_single (acc : List (String × ℚ)) (p : String × ℚ) (name : String) :
    dictGet (acc ++ [p]) name =
      match dictGet acc name with
      | some v => some v
      | none => if p.1 = name then some p.2 else none := by
  induction acc with
  | nil => simp [dictGet]
  | cons q qs ih =>
    by_cases h : q.1 = name <;> simp_all [dictGet]

theorem dictGet_none_iff_not_any (acc : List (String × ℚ)) (k : String) :
    dictGet acc k = none ↔ acc.any (fun q => q.1 == k) = false := by
  induction acc with
  | nil => simp [dictGet]
  | cons q qs ih =>
    by_cases h : q.1 = k <;> simp_all [dictGet]

theorem addPoints_dictGet (acc : List (String × ℚ)) (p : String × ℚ) (name : String) :
    dictGet (addPoints acc p) name =
      match dictGet acc name with
      | some v => if p.1 = name then some (v + p.2) else some v
      | none => if p.1 = name then some p.2 else none := by
  unfold addPoints
  by_cases hany : acc.any (fun q => q.1 == p.1) = true
  · rw [if_pos hany, dictGet_update]
    by_cases h2 : p.1 = name
    · subst h2
      cases hl : dictGet acc p.1 with
      | none =>
        rw [dictGet_none_iff_not_any, hany] at hl
        cases hl
      | some v => simp
    · simp only [if_neg h2]
      cases hl : dictGet acc name <;> simp
  · rw [if_neg hany, dictGet_append_single]
    have hnone : dictGet acc p.1 = none := by
      rw [dictGet_none_iff_not_any]
      exact Bool.eq_false_iff.mpr hany
    by_cases h2 : p.1 = name
    · subst h2
      rw [hnone]
    · cases hl : dictGet acc name <;> simp [h2]

theorem foldl_addPoints_dictGet (pairs : List (String × ℚ)) :
    ∀ (acc : List (String × ℚ)) (name : String),
      dictGet (pairs.foldl addPoints acc) name =
        match dictGet acc name with
        | some v => some (v + ((pairs.filter (fun p => p.1 == name)).map Prod.snd).sum)
        | none =>
          if (pairs.filter (fun p => p.1 == name)).isEmpty then none
          else some ((pairs.filter (fun p => p.1 == name)).map Prod.snd).sum := by
  induction pairs with
  | nil =>
    intro acc name
    cases hl : dictGet acc name <;> simp [hl]
  | cons p ps ih =>
    intro acc name
    rw [List.foldl_cons, ih, addPoints_dictGet]
    by_cases h : p.1 = name
    · have hb : (p.1 == name) = true := by simp [h]
      have hf : (p :: ps).filter (fun q => q.1 == name) =
          p :: ps.filter (fun q => q.1 == name) := by
        simp [List.filter_cons, hb]
      cases hl : dictGet acc name <;>
        simp [h, hf, add_assoc]
    · have hb : (p.1 == name) = false := by simp [h]
      have hf : (p :: ps).filter (fun q => q.1 == name) =
          ps.filter (fun q => q.1 == name) := by
        simp [List.filter_cons, hb]
      rw [hf]
      cases hl : dictGet acc name <;>
        simp [h]

theorem assignedPairs_filter (cfg : JiraConfig) (issues : List Issue) (name : String) :
    (assignedPairs cfg issues).filter (fun p => p.1 == name) =
      (issues.filter (fun i => i.assignee == some name)).map
        (fun i => (name, storyPointsOf cfg i)) := by
  induction issues with
  | nil => rfl
  | cons i is ih =>
    cases ha : i.assignee with
    | none => simp_all [assignedPairs, List.filterMap_cons, List.filter_cons, ha]
    | some a =>
      by_cases h : a = name <;>
        simp_all [assignedPairs, List.filterMap_cons, List.filter_cons, ha, h]

theorem pointsDescLe_trans (a b c : String × ℚ) :
    pointsDescLe a b = true → pointsDescLe b c = true → pointsDescLe a c = true := by
  simp only [pointsDescLe, decide_eq_true_eq]
  intro h1 h2
  exact le_trans h2 h1

theorem pointsDescLe_total (a b : String × ℚ) :
    (pointsDescLe a b || pointsDescLe b a) = true := by
  simp only [pointsDescLe, Bool.or_eq_true, decide_eq_true_eq]
  exact le_total b.2 a.2

/-- C7: the workload summary is a permutation of the aggregation map
(assignee, in first-encounter order, to summed story points of the
issues assigned to them, issues without assignee excluded), sorted
descending by total points; Python sorted is stable, so two entries with
equal points keep their relative aggregation order. -/
theorem workload_summary_spec (cfg : JiraConfig) (issues : List Issue) :
    (analyzeWorkload cfg issues).Pairwise (fun a b => b.2 ≤ a.2) ∧
    (analyzeWorkload cfg issues).Perm (workloadAgg cfg issues) ∧
    (∀ name : String,
      dictGet (workloadAgg cfg issues) name =
        (if (issues.filter (fun i => i.assignee == some name)).isEmpty then none
         else some (((issues.filter (fun i => i.assignee == some name)).map
           (storyPointsOf cfg)).sum))) ∧
    (∀ a b : String × ℚ, [a, b].Sublist (workloadAgg cfg issues) → a.2 = b.2 →
      [a, b].Sublist (analyzeWorkload cfg issues)) := by
  refine ⟨?_, ?_, ?_, ?_⟩
  · have h := @List.sorted_mergeSort _ pointsDescLe
      pointsDescLe_trans pointsDescLe_total (workloadAgg cfg issues)
    exact h.imp (fun hab => by simpa [pointsDescLe] using hab)
  · exact List.mergeSort_perm (workloadAgg cfg issues) pointsDescLe
  · intro name
    have h := foldl_addPoints_dictGet (assignedPairs cfg issues) [] name
    rw [assignedPairs_filter] at h
    simp only [dictGet] at h
    simp only [workloadAgg]
    rw [h]
    simp only [List.map_map]
    by_cases he : (issues.filter (fun i => i.assignee == some name)) = [] <;>
      simp [he, Function.comp_def]
  · intro a b hsub htie
    exact List.pair_sublist_mergeSort pointsDescLe_trans pointsDescLe_total
      (by simp [pointsDescLe, htie]) hsub

/-- C7 witness: three assignees with points 3, 5, 3; alice sorts first
and the tied bob and carol keep their aggregation order. -/
theorem workload_summary_witness :
    (("bob", (3 : ℚ)) :: ("carol", (3 : ℚ)) :: []).Sublist
      (analyzeWorkload wlCfg [wlBob, wlAlice, wlCarol]) := by
  have h := (workload_summary_spec wlCfg [wlBob, wlAlice, wlCarol]).2.2.2
    ("bob", (3 : ℚ)) ("carol", (3 : ℚ))
  refine h ?_ rfl
  have hagg : workloadAgg wlCfg [wlBob, wlAlice, wlCarol] =
      [("bob", (3 : ℚ)), ("alice", (5 : ℚ)), ("carol", (3 : ℚ))] := by decide
  rw [hagg]
  refine List.Sublist.cons₂ _ ?_
  refine List.Sublist.cons _ ?_
  exact List.Sublist.refl _

theorem map_fst_update (m : List (String × EpicInfo)) (k : String) (v : EpicInfo) :
    (m.map (fun p => if p.1 = k then (p.1, v) else p)).map Prod.fst = m.map Prod.fst := by
  induction m with
  | nil => rfl
  | cons q qs ih => by_cases hq : q.1 = k <;> simp_all

theorem any_key_iff (m : List (String × EpicInfo)) (k : String) :
    m.any (fun p => p.1 == k) = true ↔ k ∈ m.map Prod.fst := by
  induction m with
  | nil => simp
  | cons q qs ih =>
    simp only [List.any_cons, List.map_cons, List.mem_cons, Bool.or_eq_true, beq_iff_eq, ih]
    constructor
    · rintro (h | h)
      · exact Or.inl h.symm
      · exact Or.inr h
    · rintro (h | h)
      · exact Or.inl h.symm
      · exact Or.inr h

theorem dictInsertEpic_mem (m : List (String × EpicInfo)) (k : String) (v : EpicInfo)
    (a : String) :
    a ∈ (dictInsertEpic m k v).map Prod.fst ↔ a ∈ m.map Prod.fst ∨ a = k := by
  unfold dictInsertEpic
  by_cases h : m.any (fun p => p.1 == k) = true
  · rw [if_pos h, map_fst_update]
    have hk := (any_key_iff m k).mp h
    constructor
    · exact Or.inl
    · rintro (ha | rfl)
      · exact ha
      · exact hk
  · rw [if_neg h]
    simp

theorem dictInsertEpic_nodup (m : List (String × EpicInfo)) (k : String) (v : EpicInfo)
    (h : (m.map Prod.fst).Nodup) :
    ((dictInsertEpic m k v).map Prod.fst).Nodup := by
  unfold dictInsertEpic
  by_cases hx : m.any (fun p => p.1 == k) = true
  · rw [if_pos hx, map_fst_update]
    exact h
  · rw [if_neg hx]
    have hk : k ∉ m.map Prod.fst := fun hc => hx ((any_key_iff m k).mpr hc)
    simp [List.nodup_append, h, hk]

theorem extractEpicsGo_calls (cfg : JiraConfig) (fetch : String → Option String)
    (fid : String) (issues : List Issue) :
    ∀ acc, (extractEpicsGo cfg fetch fid issues acc).1 =
      acc.1 ++ issues.filterMap (epicKeyOf fid) := by
  induction issues with
  | nil => intro acc; simp [extractEpicsGo]
  | cons i is ih =>
    intro acc
    simp only [extractEpicsGo, List.filterMap_cons]
    cases hk : getStrField i.customStr fid with
    | none => simp [epicKeyOf, hk, ih]
    | some k =>
      by_cases hke : k = ""
      · simp [epicKeyOf, hk, hke, ih]
      · cases hf : fetch k <;> simp [epicKeyOf, hk, hke, hf, ih]

theorem extractEpicsGo_keys (cfg : JiraConfig) (fetch : String → Option String)
    (fid : String) (issues : List Issue) :
    ∀ acc, ((acc.2.map Prod.fst).Nodup →
        ((extractEpicsGo cfg fetch fid issues acc).2.map Prod.fst).Nodup) ∧
      (∀ a, a ∈ (extractEpicsGo cfg fetch fid issues acc).2.map Prod.fst ↔
        a ∈ acc.2.map Prod.fst ∨
          (a ∈ issues.filterMap (epicKeyOf fid) ∧ (fetch a).isSome = true)) := by
  induction issues with
  | nil =>
    intro acc
    exact ⟨id, by intro a; simp [extractEpicsGo]⟩
  | cons i is ih =>
    intro acc
    simp only [extractEpicsGo, List.filterMap_cons]
    cases hk : getStrField i.customStr fid with
    | none =>
      refine ⟨(ih acc).1, ?_⟩
      intro a
      simp [epicKeyOf, hk, (ih acc).2 a]
    | some k =>
      by_cases hke : k = ""
      · simp only [if_pos hke]
        refine ⟨(ih acc).1, ?_⟩
        intro a
        simp [epicKeyOf, hk, hke, (ih acc).2 a]
      · simp only [if_neg hke]
        cases hf : fetch k with
        | some summ =>
          dsimp only
          refine ⟨?_, ?_⟩
          · intro hnd
            exact (ih _).1 (dictInsertEpic_nodup acc.2 k _ hnd)
          · intro a
            rw [(ih _).2 a]
            simp only [dictInsertEpic_mem, epicKeyOf, hk, if_neg hke, List.mem_cons]
            by_cases ha : a = k
            · subst ha
              simp [hf]
            · simp only [ha, or_false, false_or]
        | none =>
          dsimp only
          refine ⟨(ih (acc.1 ++ [k], acc.2)).1, ?_⟩
          intro a
          rw [(ih _).2 a]
          simp only [epicKeyOf, hk, if_neg hke, List.mem_cons]
          by_cases ha : a = k
          · subst ha
            simp [hf]
          · simp only [ha, false_or]

/-- C8 counterexample: two issues sharing epic key EPIC-1 trigger two
external single-issue lookups, not one per distinct key; the resulting
epics map still contains a single entry for EPIC-1. -/
theorem epic_fetch_counterexample :
    (extractEpics epicCfg epicFetch [epicIssue1, epicIssue2]).1 = ["EPIC-1", "EPIC-1"] ∧
    (extractEpics epicCfg epicFetch [epicIssue1, epicIssue2]).1.length ≠
      (extractEpics epicCfg epicFetch [epicIssue1, epicIssue2]).1.dedup.length ∧
    (extractEpics epicCfg epicFetch [epicIssue1, epicIssue2]).2.map Prod.fst = ["EPIC-1"] :=
  ⟨by decide, by decide, by decide⟩

/-- C8 amended: the extractor performs one external lookup per issue
whose epic-link value is truthy (so duplicate epic keys are fetched once
per bearing issue, not once per distinct key), the epics map holds
exactly one entry per distinct successfully fetched key, and an
individual lookup failure only omits that key without aborting. -/
theorem epic_extraction_spec (cfg : JiraConfig) (fetch : String → Option String)
    (issues : List Issue) (fid : String)
    (hfid : resolveEpicLinkField cfg = some fid) :
    (extractEpics cfg fetch issues).1 = issues.filterMap (epicKeyOf fid) ∧
    ((extractEpics cfg fetch issues).2.map Prod.fst).Nodup ∧
    (∀ k, k ∈ (extractEpics cfg fetch issues).2.map Prod.fst ↔
      (k ∈ issues.filterMap (epicKeyOf fid) ∧ (fetch k).isSome = true)) := by
  unfold extractEpics
  rw [hfid]
  refine ⟨?_, ?_, ?_⟩
  · simpa using extractEpicsGo_calls cfg fetch fid issues ([], [])
  · exact (extractEpicsGo_keys cfg fetch fid issues ([], [])).1 (by simp)
  · intro k
    have h := (extractEpicsGo_keys cfg fetch fid issues ([], [])).2 k
    simpa using h

/-- C8 amended witness: the concrete epic fixtures with an explicitly
configured epic-link field. -/
theorem epic_extraction_witness :
    (extractEpics epicCfg epicFetch [epicIssue1, epicIssue2]).1 =
      [epicIssue1, epicIssue2].filterMap (epicKeyOf "customfield_epic") ∧
    ((extractEpics epicCfg epicFetch [epicIssue1, epicIssue2]).2.map Prod.fst).Nodup ∧
    (∀ k, k ∈ (extractEpics epicCfg epicFetch [epicIssue1, epicIssue2]).2.map Prod.fst ↔
      (k ∈ [epicIssue1, epicIssue2].filterMap (epicKeyOf "customfield_epic") ∧
        (epicFetch k).isSome = true)) :=
  epic_extraction_spec epicCfg epicFetch [epicIssue1, epicIssue2] "customfield_epic" rfl

/-- C10: the unestimated-hygiene check resolves the story-points field
directly from config with the literal default customfield_10016 and no
field-mapping scan, while the metrics calculator scans the mapping
table; with a config resolvable only through the mapping, the concrete
5-point issue is counted in total_story_points yet flagged unestimated. -/
theorem hygiene_field_resolution_divergence :
    resolveStoryPointsField c10Cfg = "customfield_99" ∧
    directStoryPointsField c10Cfg = "customfield_10016" ∧
    (calculateMetrics c10Cfg [c10Issue]).total_story_points = 5 ∧
    (checkSprintHygiene c10Cfg gDefault [c10Issue]).unestimated_issues.keys = ["SB-42"] := by
  refine ⟨rfl, rfl, ?_, by decide⟩
  have h : (calculateMetrics c10Cfg [c10Issue]).total_story_points = 0 + 5 := rfl
  rw [h]
  norm_num

end StandupBot
